import Mathlib

/-!
The `bash` and `code_search` tools of byoa.

A shallow embedding of `tools/bash.go` and `tools/codeSearch.go`.

Modelling conventions.

* A Go `string` is a Lean `String`, read as its sequence of Unicode code
  points (the outputs handled are taken to be valid UTF-8, so a rune of the Go
  string is a `Char` here and the byte `0x0A` occurs exactly as the character
  `'\n'`).
* A Go `error` value is a `GoError`; `nil` is `none`.
* `json.Unmarshal(input, &v)` is represented by its outcome, an
  `Except GoError v`: the decoded struct or the decoding error.
* Spawning a process is a function `exec` from the argument vector to the pair
  returned by `cmd.Output()` / `cmd.CombinedOutput()`.  The commands a tool
  spawns are recorded, in order, in the `spawned` field of its result.
* `log.Printf` calls only write to the log stream and are left out.
-/

/-! ## Go standard library functions used by the tools -/

namespace unicode

/-- Go's `unicode.IsSpace`: the Latin-1 spaces `'\t'`, `'\n'`, `'\v'`, `'\f'`,
`'\r'`, `' '`, U+0085 (NEL), U+00A0 (NBSP), and beyond Latin-1 the code points
of the `White_Space` table. -/
def IsSpace (r : Char) : Bool :=
  let c := r.toNat
  if c ≤ 0xFF then
    c = 0x09 || c = 0x0A || c = 0x0B || c = 0x0C || c = 0x0D || c = 0x20 ||
      c = 0x85 || c = 0xA0
  else
    c = 0x1680 || (0x2000 ≤ c && c ≤ 0x200A) || c = 0x2028 || c = 0x2029 ||
      c = 0x202F || c = 0x205F || c = 0x3000

end unicode

namespace strings

/-- Go's `strings.TrimSpace`: the string without its leading and trailing white
space (as defined by `unicode.IsSpace`); the leading run is removed first, then
the trailing one. -/
def TrimSpace (s : String) : String :=
  ⟨List.rdropWhile unicode.IsSpace (List.dropWhile unicode.IsSpace s.data)⟩

/-- Go's `strings.Split(s, sep)` for a one-character separator (the only use in
this repository is `sep = "\n"`): the substrings between the occurrences of
`sep`; a string without `sep`, the empty string included, gives `[s]`. -/
def Split (s : String) (sep : Char) : List String :=
  (s.data.splitOn sep).map String.mk

/-- Go's `strings.Join(elems, sep)`: the elements concatenated with `sep`
between them. -/
def Join (elems : List String) (sep : String) : String :=
  ⟨List.intercalate sep.data (elems.map String.data)⟩

end strings

namespace fmt

/-- The verb `%d` of `fmt.Sprintf` on a non-negative `int`: its decimal
digits. -/
def formatInt (n : Nat) : String :=
  ⟨Nat.toDigits 10 n⟩

end fmt

/-! ## Errors and processes -/

/-- The Go `error` values that reach the tools. -/
inductive GoError where
  /-- an error returned by `json.Unmarshal` -/
  | unmarshal (msg : String)
  /-- an `*exec.ExitError`: the process ran and ended unsuccessfully;
  `code` is what `ExitCode()` returns, `msg` what `Error()` returns -/
  | exit (code : Int) (msg : String)
  /-- any other failure of running a command (not an `*exec.ExitError`), for
  instance the executable was not found -/
  | other (msg : String)
  /-- the value of `fmt.Errorf(msg)` for a format without verbs -/
  | errorf (msg : String)
  /-- the value of `fmt.Errorf(pre ++ "%w", inner)` -/
  | wrapf (pre : String) (inner : GoError)
  deriving DecidableEq

namespace GoError

/-- The method `Error()`. -/
def Error : GoError → String
  | unmarshal msg => msg
  | exit _ msg => msg
  | other msg => msg
  | errorf msg => msg
  | wrapf pre inner => pre ++ inner.Error

end GoError

/-- What `cmd.Output()` and `cmd.CombinedOutput()` return: the captured output
and the error. -/
structure CmdResult where
  output : String
  err : Option GoError
  deriving DecidableEq

/-- What a tool function returns, `(string, error)`, with the commands it
spawned. -/
structure ToolResult where
  content : String
  err : Option GoError
  spawned : List (List String)
  deriving DecidableEq

namespace tools

/-- The struct `CodeSearchInput`; a field missing from the JSON keeps its zero
value (`""`, `false`). -/
structure CodeSearchInput where
  Pattern : String
  Path : String := ""
  FileType : String := ""
  CaseSensitive : Bool := false
  deriving DecidableEq

/-- The struct `BashInput`. -/
structure BashInput where
  Command : String
  deriving DecidableEq

/-- The argument vector `args` built by `CodeSearch` (codeSearch.go, lines
46 to 67). -/
def codeSearchArgs (codeSearchInput : CodeSearchInput) : List String :=
  let args := ["rg", "--line-number", "--with-filename", "--color=never"]
  let args := if !codeSearchInput.CaseSensitive then args ++ ["--ignore-case"] else args
  let args :=
    if codeSearchInput.FileType ≠ "" then args ++ ["--type", codeSearchInput.FileType] else args
  let args := args ++ [codeSearchInput.Pattern]
  if codeSearchInput.Path ≠ "" then args ++ [codeSearchInput.Path] else args ++ ["."]

/-- The function `CodeSearch` of codeSearch.go. `decoded` is the outcome of
`json.Unmarshal(input, &codeSearchInput)`. -/
def CodeSearch (decoded : Except GoError CodeSearchInput) (exec : List String → CmdResult) :
    ToolResult :=
  match decoded with
  | .error err => ⟨"", some err, []⟩
  | .ok codeSearchInput =>
    if codeSearchInput.Pattern = "" then
      ⟨"", some (.errorf "pattern is required"), []⟩
    else
      let args := codeSearchArgs codeSearchInput
      let cmd := exec args
      match cmd.err with
      | some err =>
        let failed : ToolResult := ⟨"", some (.wrapf "search failed: " err), [args]⟩
        match err with
        | .exit code _ => if code = 1 then ⟨"No matches found", none, [args]⟩ else failed
        | _ => failed
      | none =>
        let result := strings.TrimSpace cmd.output
        let lines := strings.Split result '\n'
        let result :=
          if lines.length > 50 then
            strings.Join (lines.take 50) "\n" ++
              ("\n... (showing first 50 of " ++ fmt.formatInt lines.length ++ " matches)")
          else result
        ⟨result, none, [args]⟩

/-- The function `Bash` of bash.go. `decoded` is the outcome of
`json.Unmarshal(input, &bashInput)`. -/
def Bash (decoded : Except GoError BashInput) (exec : List String → CmdResult) : ToolResult :=
  match decoded with
  | .error err => ⟨"", some err, []⟩
  | .ok bashInput =>
    let args := ["bash", "-c", bashInput.Command]
    let cmd := exec args
    match cmd.err with
    | some err =>
      ⟨"Command failed with error: " ++ err.Error ++ "\nOutput: " ++ cmd.output, none, [args]⟩
    | none => ⟨strings.TrimSpace cmd.output, none, [args]⟩

end tools

/-! ## Sample inputs -/

namespace tools

/-- A search output of 51 result lines, `a.go:1:x` to `a.go:51:x`, each
ended by a newline, as ripgrep prints them. -/
def output51 : String :=
  "a.go:1:x\na.go:2:x\na.go:3:x\na.go:4:x\na.go:5:x\na.go:6:x\na.go:7:x\na.go:8:x\n" ++
    "a.go:9:x\na.go:10:x\na.go:11:x\na.go:12:x\na.go:13:x\na.go:14:x\na.go:15:x\na.go:16:x\n" ++
    "a.go:17:x\na.go:18:x\na.go:19:x\na.go:20:x\na.go:21:x\na.go:22:x\na.go:23:x\na.go:24:x\n" ++
    "a.go:25:x\na.go:26:x\na.go:27:x\na.go:28:x\na.go:29:x\na.go:30:x\na.go:31:x\na.go:32:x\n" ++
    "a.go:33:x\na.go:34:x\na.go:35:x\na.go:36:x\na.go:37:x\na.go:38:x\na.go:39:x\na.go:40:x\n" ++
    "a.go:41:x\na.go:42:x\na.go:43:x\na.go:44:x\na.go:45:x\na.go:46:x\na.go:47:x\na.go:48:x\n" ++
    "a.go:49:x\na.go:50:x\na.go:51:x\n"

/-- An output of `n + 1` lines `a`, separated by newlines. -/
def linesOfA : Nat → List Char
  | 0 => ['a']
  | n + 1 => 'a' :: '\n' :: linesOfA n

end tools

/-! ## Facts about the library functions -/

section ListFacts

variable {α : Type}

theorem intercalate_concat (x : α) (ls : List (List α)) (m : List α) (h : ls ≠ []) :
    List.intercalate [x] (ls ++ [m]) = List.intercalate [x] ls ++ x :: m := by
  induction ls with
  | nil => exact absurd rfl h
  | cons a t ih =>
    cases t with
    | nil => simp [List.intercalate, List.intersperse]
    | cons b u =>
      have := ih (by simp)
      simp only [List.intercalate, List.cons_append, List.intersperse_cons_cons,
        List.flatten_cons, List.append_assoc] at this ⊢
      rw [this]

variable [DecidableEq α]

theorem splitOn_length_eq_count (x : α) (l : List α) :
    (l.splitOn x).length = l.count x + 1 := by
  induction l with
  | nil => simp
  | cons a t ih =>
    simp only [List.splitOn] at ih ⊢
    rw [List.splitOnP_cons]
    by_cases h : a = x
    · subst h
      simp [ih]
    · have h1 : (a == x) = false := by simpa using h
      simp [h1, ih, List.count_cons]

theorem not_mem_of_mem_splitOn (x : α) (l : List α) :
    ∀ piece ∈ l.splitOn x, x ∉ piece := by
  induction l with
  | nil => simp
  | cons a t ih =>
    simp only [List.splitOn] at ih ⊢
    rw [List.splitOnP_cons]
    by_cases h : a = x
    · subst h
      intro piece hp
      simp only [beq_self_eq_true, if_true, List.mem_cons] at hp
      rcases hp with rfl | hp
      · simp
      · exact ih piece hp
    · have h1 : (a == x) = false := by simpa using h
      simp only [h1]
      cases hs : List.splitOnP (fun y => y == x) t with
      | nil => simp
      | cons hd tl =>
        rw [hs] at ih
        intro piece hp
        simp only [Bool.false_eq_true, if_false, List.modifyHead_cons, List.mem_cons] at hp
        rcases hp with rfl | hp
        · have := ih hd (by simp)
          simp only [List.mem_cons, not_or]
          exact ⟨fun e => h e.symm, this⟩
        · exact ih piece (by simp [hp])

end ListFacts

/-! ### Decimal digits -/

theorem digitChar_ne_newline (d : Nat) (h : d < 10) : Nat.digitChar d ≠ '\n' := by
  interval_cases d <;> decide

theorem toDigitsCore_ne_newline (fuel : Nat) :
    ∀ (n : Nat) (ds : List Char), (∀ c ∈ ds, c ≠ '\n') →
      ∀ c ∈ Nat.toDigitsCore 10 fuel n ds, c ≠ '\n' := by
  induction fuel with
  | zero => intro n ds hds; simpa [Nat.toDigitsCore] using hds
  | succ f ih =>
    intro n ds hds
    have hcons : ∀ c ∈ Nat.digitChar (n % 10) :: ds, c ≠ '\n' := by
      intro c hc
      rcases List.mem_cons.mp hc with rfl | hc
      · exact digitChar_ne_newline _ (Nat.mod_lt _ (by decide))
      · exact hds c hc
    simp only [Nat.toDigitsCore]
    split
    · exact hcons
    · exact ih _ _ hcons

theorem formatInt_no_newline (n : Nat) : '\n' ∉ (fmt.formatInt n).data := by
  intro h
  exact toDigitsCore_ne_newline _ n [] (by simp) _ h rfl

/-! ### `strings.TrimSpace` -/

theorem TrimSpace_data (s : String) :
    (strings.TrimSpace s).data =
      List.rdropWhile unicode.IsSpace (List.dropWhile unicode.IsSpace s.data) := rfl

/-- The first character of a trimmed string, when there is one, is not white space. -/
theorem TrimSpace_head_not_space (s : String) (c : Char)
    (h : (strings.TrimSpace s).data.head? = some c) : unicode.IsSpace c = false := by
  rw [TrimSpace_data] at h
  obtain ⟨t, ht⟩ := List.rdropWhile_prefix unicode.IsSpace
    (l := List.dropWhile unicode.IsSpace s.data)
  cases hr : List.rdropWhile unicode.IsSpace (List.dropWhile unicode.IsSpace s.data) with
  | nil => rw [hr] at h; simp at h
  | cons a u =>
    rw [hr] at h ht
    simp only [List.head?_cons, Option.some.injEq] at h
    subst h
    have hne : List.dropWhile unicode.IsSpace s.data ≠ [] := by
      rw [← ht]; simp
    have := List.head_dropWhile_not unicode.IsSpace s.data hne
    simpa [← ht] using this

/-- The last character of a trimmed string, when there is one, is not white space. -/
theorem TrimSpace_last_not_space (s : String) (c : Char)
    (h : (strings.TrimSpace s).data.getLast? = some c) : unicode.IsSpace c = false := by
  rw [TrimSpace_data] at h
  have hne : List.rdropWhile unicode.IsSpace (List.dropWhile unicode.IsSpace s.data) ≠ [] := by
    intro e; rw [e] at h; simp at h
  have := List.rdropWhile_last_not unicode.IsSpace _ hne
  rw [List.getLast?_eq_getLast _ hne, Option.some.injEq] at h
  rw [h] at this
  simpa using this

/-- Trimming a trimmed string changes nothing. -/
theorem TrimSpace_idempotent (s : String) :
    strings.TrimSpace (strings.TrimSpace s) = strings.TrimSpace s := by
  have hd : List.dropWhile unicode.IsSpace (strings.TrimSpace s).data
      = (strings.TrimSpace s).data := by
    cases hr : (strings.TrimSpace s).data with
    | nil => rfl
    | cons a u =>
      have := TrimSpace_head_not_space s a (by rw [hr]; rfl)
      simp [List.dropWhile_cons, this]
  show String.mk _ = String.mk _
  rw [hd, TrimSpace_data, List.rdropWhile_idempotent]

/-! ### `strings.Split` and `strings.Join` -/

theorem map_data_map_mk (ls : List (List Char)) :
    (ls.map String.mk).map String.data = ls := by
  induction ls with
  | nil => rfl
  | cons a t ih => rw [List.map_cons, List.map_cons, ih]

/-- The number of pieces is the number of separators plus one. -/
theorem Split_length (s : String) (sep : Char) :
    (strings.Split s sep).length = s.data.count sep + 1 := by
  simp [strings.Split, splitOn_length_eq_count]

theorem Split_ne_nil (s : String) (sep : Char) : strings.Split s sep ≠ [] := by
  intro h
  have := Split_length s sep
  rw [h] at this
  simp at this

/-- Joining the lines of a string with newlines gives the string back. -/
theorem Join_Split (s : String) : strings.Join (strings.Split s '\n') "\n" = s := by
  show String.mk (List.intercalate ['\n'] (((s.data.splitOn '\n').map String.mk).map String.data))
    = s
  rw [map_data_map_mk, List.intercalate_splitOn]

/-- When no element contains a newline, splitting a join gives the elements back. -/
theorem Split_Join (elems : List String) (hne : elems ≠ [])
    (h : ∀ e ∈ elems, '\n' ∉ e.data) :
    strings.Split (strings.Join elems "\n") '\n' = elems := by
  show ((List.intercalate ['\n'] (elems.map String.data)).splitOn '\n').map String.mk = elems
  rw [List.splitOn_intercalate]
  · simp [List.map_map, Function.comp_def]
  · intro l hl
    obtain ⟨e, he, rfl⟩ := List.mem_map.mp hl
    exact h e he
  · simpa using hne

theorem not_mem_of_mem_Split (s : String) (e : String) (he : e ∈ strings.Split s '\n') :
    '\n' ∉ e.data := by
  obtain ⟨l, hl, rfl⟩ := List.mem_map.mp he
  exact not_mem_of_mem_splitOn '\n' s.data l hl

theorem Join_concat (elems : List String) (m : String) (hne : elems ≠ []) :
    strings.Join (elems ++ [m]) "\n" = strings.Join elems "\n" ++ ("\n" ++ m) := by
  show String.mk (List.intercalate ['\n'] ((elems ++ [m]).map String.data))
    = String.mk (List.intercalate ['\n'] (elems.map String.data)) ++ ("\n" ++ m)
  rw [List.map_append, List.map_singleton, intercalate_concat _ _ _ (by simpa using hne)]
  rfl

/-- The truncation line written by `CodeSearch`, without its leading newline. -/
theorem marker_no_newline (n : Nat) :
    '\n' ∉ ("... (showing first 50 of " ++ fmt.formatInt n ++ " matches)").data := by
  have h := formatInt_no_newline n
  simp only [String.data_append, List.mem_append, not_or]
  exact ⟨⟨by decide, h⟩, by decide⟩

theorem marker_split (n : Nat) :
    "\n... (showing first 50 of " ++ fmt.formatInt n ++ " matches)"
      = "\n" ++ ("... (showing first 50 of " ++ fmt.formatInt n ++ " matches)") := by
  apply String.ext
  simp only [String.data_append]
  rfl

/-- The lines of a truncated result: the first `k` lines, then the marker line. -/
theorem Split_truncated (s : String) (k n : Nat) (hk : 0 < k) :
    strings.Split
        (strings.Join ((strings.Split s '\n').take k) "\n" ++
          ("\n... (showing first 50 of " ++ fmt.formatInt n ++ " matches)")) '\n'
      = (strings.Split s '\n').take k ++
          ["... (showing first 50 of " ++ fmt.formatInt n ++ " matches)"] := by
  have hne : (strings.Split s '\n').take k ≠ [] := by
    cases hs : strings.Split s '\n' with
    | nil => exact absurd hs (Split_ne_nil s '\n')
    | cons a t =>
      cases k with
      | zero => omega
      | succ j => simp
  rw [marker_split, ← Join_concat _ _ hne]
  apply Split_Join
  · simp
  · intro e he
    rcases List.mem_append.mp he with he | he
    · exact not_mem_of_mem_Split s e (List.mem_of_mem_take he)
    · rw [List.mem_singleton.mp he]
      exact marker_no_newline n

/-! ## The `code_search` tool -/

namespace tools

/-- `CodeSearch` on a decoded input with a non-empty pattern, unfolded: the
outcome is decided by what running `codeSearchArgs` returns. -/
theorem CodeSearch_ok_eq (inp : CodeSearchInput) (exec : List String → CmdResult)
    (hp : inp.Pattern ≠ "") :
    CodeSearch (.ok inp) exec =
      match (exec (codeSearchArgs inp)).err with
      | some err =>
        match err with
        | .exit code _ =>
          if code = 1 then ⟨"No matches found", none, [codeSearchArgs inp]⟩
          else ⟨"", some (.wrapf "search failed: " err), [codeSearchArgs inp]⟩
        | _ => ⟨"", some (.wrapf "search failed: " err), [codeSearchArgs inp]⟩
      | none =>
        ⟨if (strings.Split (strings.TrimSpace (exec (codeSearchArgs inp)).output) '\n').length > 50
          then
            strings.Join
                ((strings.Split (strings.TrimSpace (exec (codeSearchArgs inp)).output) '\n').take
                  50) "\n" ++
              ("\n... (showing first 50 of " ++
                fmt.formatInt
                  (strings.Split (strings.TrimSpace (exec (codeSearchArgs inp)).output)
                    '\n').length ++
                " matches)")
          else strings.TrimSpace (exec (codeSearchArgs inp)).output,
          none, [codeSearchArgs inp]⟩ := by
  simp only [CodeSearch, hp, if_false]

/-- The successful branch of `CodeSearch` when the trimmed output has more than
50 lines. -/
theorem CodeSearch_long_output (inp : CodeSearchInput) (exec : List String → CmdResult)
    (hp : inp.Pattern ≠ "") (he : (exec (codeSearchArgs inp)).err = none)
    (hn : 50 < (strings.Split (strings.TrimSpace (exec (codeSearchArgs inp)).output) '\n').length) :
    CodeSearch (.ok inp) exec =
      ⟨strings.Join
            ((strings.Split (strings.TrimSpace (exec (codeSearchArgs inp)).output) '\n').take 50)
            "\n" ++
          ("\n... (showing first 50 of " ++
            fmt.formatInt
              (strings.Split (strings.TrimSpace (exec (codeSearchArgs inp)).output) '\n').length ++
            " matches)"),
        none, [codeSearchArgs inp]⟩ := by
  rw [CodeSearch_ok_eq inp exec hp, he]
  simp only
  rw [if_pos hn]

/-- The successful branch of `CodeSearch` when the trimmed output has at most
50 lines. -/
theorem CodeSearch_short_output (inp : CodeSearchInput) (exec : List String → CmdResult)
    (hp : inp.Pattern ≠ "") (he : (exec (codeSearchArgs inp)).err = none)
    (hn : (strings.Split (strings.TrimSpace (exec (codeSearchArgs inp)).output) '\n').length
      ≤ 50) :
    CodeSearch (.ok inp) exec =
      ⟨strings.TrimSpace (exec (codeSearchArgs inp)).output, none, [codeSearchArgs inp]⟩ := by
  rw [CodeSearch_ok_eq inp exec hp, he]
  simp only
  rw [if_neg (by omega)]

/-- C1: for a decoded input with a non-empty pattern, when the search process
ends with an exit error whose exit code is 1, `CodeSearch` returns the content
"No matches found" and a nil error, whatever the process wrote to its output. -/
theorem CodeSearch_no_matches (inp : CodeSearchInput) (exec : List String → CmdResult)
    (msg : String) (hp : inp.Pattern ≠ "")
    (he : (exec (codeSearchArgs inp)).err = some (.exit 1 msg)) :
    (CodeSearch (.ok inp) exec).content = "No matches found" ∧
      (CodeSearch (.ok inp) exec).err = none := by
  rw [CodeSearch_ok_eq inp exec hp, he]
  simp

theorem CodeSearch_no_matches_witness :
    (({ Pattern := "TODO" } : CodeSearchInput).Pattern ≠ "") ∧
      (CodeSearch (.ok { Pattern := "TODO" })
          (fun _ => ⟨"partial output\n", some (.exit 1 "exit status 1")⟩)).content
        = "No matches found" ∧
      (CodeSearch (.ok { Pattern := "TODO" })
          (fun _ => ⟨"partial output\n", some (.exit 1 "exit status 1")⟩)).err = none :=
  ⟨by decide,
    CodeSearch_no_matches { Pattern := "TODO" }
      (fun _ => ⟨"partial output\n", some (.exit 1 "exit status 1")⟩) "exit status 1"
      (by decide) rfl⟩

/-- C2: for a decoded input with a non-empty pattern, when the search process
fails in any way other than an exit error with exit code 1, `CodeSearch`
returns an empty content and the error wrapping the failure, whose message is
"search failed: " followed by the failure's message; the content is not
"No matches found". -/
theorem CodeSearch_search_failed (inp : CodeSearchInput) (exec : List String → CmdResult)
    (err : GoError) (hp : inp.Pattern ≠ "")
    (he : (exec (codeSearchArgs inp)).err = some err)
    (hne : ∀ msg, err ≠ .exit 1 msg) :
    (CodeSearch (.ok inp) exec).content = "" ∧
      (CodeSearch (.ok inp) exec).err = some (.wrapf "search failed: " err) ∧
      (GoError.wrapf "search failed: " err).Error = "search failed: " ++ err.Error ∧
      (CodeSearch (.ok inp) exec).content ≠ "No matches found" := by
  rw [CodeSearch_ok_eq inp exec hp, he]
  cases err with
  | exit code m =>
    have hc : code ≠ 1 := by
      intro h
      exact hne m (by rw [h])
    simp [hc, GoError.Error]
  | unmarshal m => simp [GoError.Error]
  | other m => simp [GoError.Error]
  | errorf m => simp [GoError.Error]
  | wrapf p i => simp [GoError.Error]

theorem CodeSearch_search_failed_witness :
    (CodeSearch (.ok { Pattern := "(", Path := "src" })
        (fun _ => ⟨"", some (.exit 2 "exit status 2")⟩)).content = "" ∧
      (CodeSearch (.ok { Pattern := "(", Path := "src" })
        (fun _ => ⟨"", some (.exit 2 "exit status 2")⟩)).err
        = some (.wrapf "search failed: " (.exit 2 "exit status 2")) ∧
      (GoError.wrapf "search failed: " (.exit 2 "exit status 2")).Error
        = "search failed: " ++ (GoError.exit 2 "exit status 2").Error ∧
      (CodeSearch (.ok { Pattern := "(", Path := "src" })
        (fun _ => ⟨"", some (.exit 2 "exit status 2")⟩)).content ≠ "No matches found" :=
  CodeSearch_search_failed { Pattern := "(", Path := "src" }
    (fun _ => ⟨"", some (.exit 2 "exit status 2")⟩) (.exit 2 "exit status 2")
    (by decide) rfl (by intro msg; simp)

/-- The argument vector in closed form. -/
theorem codeSearchArgs_eq (inp : CodeSearchInput) :
    codeSearchArgs inp =
      ["rg", "--line-number", "--with-filename", "--color=never"] ++
        (if inp.CaseSensitive = false then ["--ignore-case"] else []) ++
        (if inp.FileType ≠ "" then ["--type", inp.FileType] else []) ++
        [inp.Pattern] ++
        [if inp.Path ≠ "" then inp.Path else "."] := by
  cases hcs : inp.CaseSensitive <;> by_cases hf : inp.FileType = "" <;>
    by_cases hpa : inp.Path = "" <;> simp [codeSearchArgs, hcs, hf, hpa]

/-- The result when the command ends with exit code 1. -/
theorem CodeSearch_of_exit_one (inp : CodeSearchInput) (exec : List String → CmdResult)
    (hp : inp.Pattern ≠ "") (m : String)
    (he : (exec (codeSearchArgs inp)).err = some (.exit 1 m)) :
    CodeSearch (.ok inp) exec = ⟨"No matches found", none, [codeSearchArgs inp]⟩ := by
  rw [CodeSearch_ok_eq inp exec hp, he]
  simp

/-- The result when the command fails otherwise. -/
theorem CodeSearch_of_failure (inp : CodeSearchInput) (exec : List String → CmdResult)
    (hp : inp.Pattern ≠ "") (err : GoError)
    (he : (exec (codeSearchArgs inp)).err = some err) (hne : ∀ m, err ≠ .exit 1 m) :
    CodeSearch (.ok inp) exec =
      ⟨"", some (.wrapf "search failed: " err), [codeSearchArgs inp]⟩ := by
  rw [CodeSearch_ok_eq inp exec hp, he]
  cases err with
  | exit code m =>
    have hc : code ≠ 1 := by
      intro h
      exact hne m (by rw [h])
    simp [hc]
  | unmarshal m => rfl
  | other m => rfl
  | errorf m => rfl
  | wrapf p i => rfl

/-- The result when the command succeeds. -/
theorem CodeSearch_of_success (inp : CodeSearchInput) (exec : List String → CmdResult)
    (hp : inp.Pattern ≠ "") (he : (exec (codeSearchArgs inp)).err = none) :
    CodeSearch (.ok inp) exec =
      ⟨if (strings.Split (strings.TrimSpace (exec (codeSearchArgs inp)).output) '\n').length > 50
        then
          strings.Join
              ((strings.Split (strings.TrimSpace (exec (codeSearchArgs inp)).output) '\n').take
                50) "\n" ++
            ("\n... (showing first 50 of " ++
              fmt.formatInt
                (strings.Split (strings.TrimSpace (exec (codeSearchArgs inp)).output)
                  '\n').length ++
              " matches)")
        else strings.TrimSpace (exec (codeSearchArgs inp)).output,
        none, [codeSearchArgs inp]⟩ := by
  rw [CodeSearch_ok_eq inp exec hp, he]

/-- C7: for a decoded input with a non-empty pattern, `CodeSearch` runs exactly
one command, whose argument vector `argv` is "rg", "--line-number",
"--with-filename", "--color=never", then "--ignore-case" iff `case_sensitive`
is false, then "--type" and the file type iff `file_type` is non-empty, then
the pattern, then the path if non-empty and "." otherwise. What `CodeSearch`
returns is what running `argv` returns, and nothing else of the process: exit
code 1 there gives "No matches found", any other failure there gives the
wrapped error, success there gives the (trimmed, capped) output of that
command; two processes that agree at `argv` give the same result. With only
`pattern="TODO"` given the command is rg with "--ignore-case", no "--type",
the pattern "TODO" and the path ".", and its outcome decides the result in the
same way. -/
theorem CodeSearch_command (inp : CodeSearchInput) (exec : List String → CmdResult)
    (hp : inp.Pattern ≠ "") (argv : List String)
    (hargv : argv =
      ["rg", "--line-number", "--with-filename", "--color=never"] ++
        (if inp.CaseSensitive = false then ["--ignore-case"] else []) ++
        (if inp.FileType ≠ "" then ["--type", inp.FileType] else []) ++
        [inp.Pattern] ++
        [if inp.Path ≠ "" then inp.Path else "."]) :
    (CodeSearch (.ok inp) exec).spawned = [argv] ∧
      (∀ exec2 : List String → CmdResult,
        exec2 argv = exec argv → CodeSearch (.ok inp) exec2 = CodeSearch (.ok inp) exec) ∧
      (∀ m : String, (exec argv).err = some (.exit 1 m) →
        CodeSearch (.ok inp) exec = ⟨"No matches found", none, [argv]⟩) ∧
      (∀ err : GoError, (exec argv).err = some err → (∀ m, err ≠ .exit 1 m) →
        CodeSearch (.ok inp) exec = ⟨"", some (.wrapf "search failed: " err), [argv]⟩) ∧
      ((exec argv).err = none →
        CodeSearch (.ok inp) exec =
          ⟨if (strings.Split (strings.TrimSpace (exec argv).output) '\n').length > 50 then
              strings.Join ((strings.Split (strings.TrimSpace (exec argv).output) '\n').take 50)
                  "\n" ++
                ("\n... (showing first 50 of " ++
                  fmt.formatInt
                    (strings.Split (strings.TrimSpace (exec argv).output) '\n').length ++
                  " matches)")
            else strings.TrimSpace (exec argv).output,
            none, [argv]⟩) ∧
      (CodeSearch (.ok { Pattern := "TODO" }) exec).spawned =
        [["rg", "--line-number", "--with-filename", "--color=never", "--ignore-case",
          "TODO", "."]] ∧
      (∀ m : String,
        (exec ["rg", "--line-number", "--with-filename", "--color=never", "--ignore-case",
          "TODO", "."]).err = some (.exit 1 m) →
        (CodeSearch (.ok { Pattern := "TODO" }) exec).content = "No matches found" ∧
          (CodeSearch (.ok { Pattern := "TODO" }) exec).err = none) ∧
      (∀ err : GoError,
        (exec ["rg", "--line-number", "--with-filename", "--color=never", "--ignore-case",
          "TODO", "."]).err = some err → (∀ m, err ≠ .exit 1 m) →
        (CodeSearch (.ok { Pattern := "TODO" }) exec).content = "" ∧
          (CodeSearch (.ok { Pattern := "TODO" }) exec).err
            = some (.wrapf "search failed: " err)) ∧
      ((exec ["rg", "--line-number", "--with-filename", "--color=never", "--ignore-case",
          "TODO", "."]).err = none →
        (strings.Split (strings.TrimSpace
          (exec ["rg", "--line-number", "--with-filename", "--color=never", "--ignore-case",
            "TODO", "."]).output) '\n').length ≤ 50 →
        (CodeSearch (.ok { Pattern := "TODO" }) exec).content =
          strings.TrimSpace
            (exec ["rg", "--line-number", "--with-filename", "--color=never", "--ignore-case",
              "TODO", "."]).output) := by
  have hargs : argv = codeSearchArgs inp := hargv.trans (codeSearchArgs_eq inp).symm
  subst hargs
  have ht : codeSearchArgs { Pattern := "TODO" } =
      ["rg", "--line-number", "--with-filename", "--color=never", "--ignore-case",
        "TODO", "."] := by decide
  have hpt : ({ Pattern := "TODO" } : CodeSearchInput).Pattern ≠ "" := by decide
  have hspawn : ∀ (i : CodeSearchInput), i.Pattern ≠ "" →
      (CodeSearch (.ok i) exec).spawned = [codeSearchArgs i] := by
    intro i hi
    cases h : (exec (codeSearchArgs i)).err with
    | none => rw [CodeSearch_of_success i exec hi h]
    | some err =>
      by_cases h1 : ∃ m, err = .exit 1 m
      · obtain ⟨m, rfl⟩ := h1
        rw [CodeSearch_of_exit_one i exec hi m h]
      · rw [CodeSearch_of_failure i exec hi err h (fun m hm => h1 ⟨m, hm⟩)]
  refine ⟨hspawn inp hp, ?_, ?_, ?_, ?_, ?_, ?_, ?_, ?_⟩
  · intro exec2 h2
    rw [CodeSearch_ok_eq inp exec hp, CodeSearch_ok_eq inp exec2 hp, h2]
  · intro m he
    exact CodeSearch_of_exit_one inp exec hp m he
  · intro err he hne
    exact CodeSearch_of_failure inp exec hp err he hne
  · intro he
    exact CodeSearch_of_success inp exec hp he
  · rw [hspawn _ hpt, ht]
  · intro m he
    rw [← ht] at he
    rw [CodeSearch_of_exit_one _ exec hpt m he]
    exact ⟨rfl, rfl⟩
  · intro err he hne
    rw [← ht] at he
    rw [CodeSearch_of_failure _ exec hpt err he hne]
    exact ⟨rfl, rfl⟩
  · intro he hn
    rw [← ht] at he hn ⊢
    rw [CodeSearch_short_output _ exec hpt he hn]

theorem CodeSearch_command_witness :
    (CodeSearch
        (.ok { Pattern := "func main", Path := "cmd", FileType := "go", CaseSensitive := true })
        (fun a =>
          if a = ["rg", "--line-number", "--with-filename", "--color=never", "--type", "go",
              "func main", "cmd"]
          then ⟨"cmd/main.go:12:func main()\n", none⟩
          else ⟨"", some (.other "another command was run")⟩))
      = ⟨"cmd/main.go:12:func main()", none,
          [["rg", "--line-number", "--with-filename", "--color=never", "--type", "go",
            "func main", "cmd"]]⟩ :=
  ((CodeSearch_command
    { Pattern := "func main", Path := "cmd", FileType := "go", CaseSensitive := true }
    (fun a =>
      if a = ["rg", "--line-number", "--with-filename", "--color=never", "--type", "go",
          "func main", "cmd"]
      then ⟨"cmd/main.go:12:func main()\n", none⟩
      else ⟨"", some (.other "another command was run")⟩)
    (by decide)
    ["rg", "--line-number", "--with-filename", "--color=never", "--type", "go",
      "func main", "cmd"]
    (by decide)).2.2.2.2.1 (by decide)).trans (by decide)

/-- C8: for a decoded input whose pattern is empty or missing, whatever its
other fields, `CodeSearch` returns an empty content and the error
"pattern is required", and spawns no command: the result is the same for every
behaviour of the process. -/
theorem CodeSearch_pattern_required (inp : CodeSearchInput) (exec : List String → CmdResult)
    (hp : inp.Pattern = "") :
    (CodeSearch (.ok inp) exec).content = "" ∧
      (CodeSearch (.ok inp) exec).err = some (.errorf "pattern is required") ∧
      (GoError.errorf "pattern is required").Error = "pattern is required" ∧
      (CodeSearch (.ok inp) exec).spawned = [] ∧
      (∀ exec2 : List String → CmdResult,
        CodeSearch (.ok inp) exec2 = CodeSearch (.ok inp) exec) := by
  simp [CodeSearch, hp, GoError.Error]

theorem CodeSearch_pattern_required_witness :
    (CodeSearch (.ok { Pattern := "", Path := "src", FileType := "go", CaseSensitive := true })
        (fun _ => ⟨"src/a.go:1:x\n", none⟩)).content = "" ∧
      (CodeSearch (.ok { Pattern := "", Path := "src", FileType := "go", CaseSensitive := true })
        (fun _ => ⟨"src/a.go:1:x\n", none⟩)).err = some (.errorf "pattern is required") :=
  have h := CodeSearch_pattern_required
    { Pattern := "", Path := "src", FileType := "go", CaseSensitive := true }
    (fun _ => ⟨"src/a.go:1:x\n", none⟩) rfl
  ⟨h.1, h.2.1⟩

end tools


namespace tools

set_option maxRecDepth 50000

/-- C3 (as stated, refuted): on the 51-line output `output51` the content is
not the first 50 lines followed by the marker "(showing first 50 of 51)"; that
text occurs nowhere in the content, which ends with
"\n... (showing first 50 of 51 matches)". -/
theorem CodeSearch_marker_counterexample :
    (strings.Split (strings.TrimSpace output51) '\n').length = 51 ∧
      (CodeSearch (.ok { Pattern := "TODO" }) (fun _ => ⟨output51, none⟩)).err = none ∧
      (CodeSearch (.ok { Pattern := "TODO" }) (fun _ => ⟨output51, none⟩)).content ≠
        strings.Join ((strings.Split (strings.TrimSpace output51) '\n').take 50) "\n" ++
          "(showing first 50 of 51)" ∧
      ¬ ("(showing first 50 of 51)".data <:+:
        (CodeSearch (.ok { Pattern := "TODO" }) (fun _ => ⟨output51, none⟩)).content.data) ∧
      (CodeSearch (.ok { Pattern := "TODO" }) (fun _ => ⟨output51, none⟩)).content =
        strings.Join ((strings.Split (strings.TrimSpace output51) '\n').take 50) "\n" ++
          "\n... (showing first 50 of 51 matches)" := by
  decide

/-- C3 (amended): for a successful search whose trimmed output splits on
newline into N > 50 lines, the content is the first 50 of those lines joined
by newlines, followed by "\n... (showing first 50 of N matches)"; the lines of
the content are those 50 lines, in order, then the marker line; the error is
nil. -/
theorem CodeSearch_truncated (inp : CodeSearchInput) (exec : List String → CmdResult)
    (hp : inp.Pattern ≠ "") (he : (exec (codeSearchArgs inp)).err = none)
    (hn : 50 < (strings.Split (strings.TrimSpace (exec (codeSearchArgs inp)).output) '\n').length) :
    (CodeSearch (.ok inp) exec).content =
        strings.Join
            ((strings.Split (strings.TrimSpace (exec (codeSearchArgs inp)).output) '\n').take 50)
            "\n" ++
          ("\n... (showing first 50 of " ++
            fmt.formatInt
              (strings.Split (strings.TrimSpace (exec (codeSearchArgs inp)).output) '\n').length ++
            " matches)") ∧
      strings.Split (CodeSearch (.ok inp) exec).content '\n' =
        (strings.Split (strings.TrimSpace (exec (codeSearchArgs inp)).output) '\n').take 50 ++
          ["... (showing first 50 of " ++
            fmt.formatInt
              (strings.Split (strings.TrimSpace (exec (codeSearchArgs inp)).output) '\n').length ++
            " matches)"] ∧
      (CodeSearch (.ok inp) exec).err = none := by
  rw [CodeSearch_long_output inp exec hp he hn]
  exact ⟨rfl, Split_truncated _ 50 _ (by decide), rfl⟩

theorem CodeSearch_truncated_witness :
    (CodeSearch (.ok { Pattern := "x" }) (fun _ => ⟨output51, none⟩)).content =
        strings.Join
            ((strings.Split (strings.TrimSpace output51) '\n').take 50) "\n" ++
          ("\n... (showing first 50 of " ++
            fmt.formatInt (strings.Split (strings.TrimSpace output51) '\n').length ++
            " matches)") ∧
      strings.Split (CodeSearch (.ok { Pattern := "x" }) (fun _ => ⟨output51, none⟩)).content
          '\n' =
        (strings.Split (strings.TrimSpace output51) '\n').take 50 ++
          ["... (showing first 50 of " ++
            fmt.formatInt (strings.Split (strings.TrimSpace output51) '\n').length ++
            " matches)"] ∧
      (CodeSearch (.ok { Pattern := "x" }) (fun _ => ⟨output51, none⟩)).err = none :=
  CodeSearch_truncated { Pattern := "x" } (fun _ => ⟨output51, none⟩) (by decide) rfl
    (by decide)

/-- C4: for a successful search whose trimmed output splits on newline into at
most 50 lines, the content is the trimmed output itself, that is exactly those
lines joined by newlines, with nothing appended, and the error is nil. -/
theorem CodeSearch_not_truncated (inp : CodeSearchInput) (exec : List String → CmdResult)
    (hp : inp.Pattern ≠ "") (he : (exec (codeSearchArgs inp)).err = none)
    (hn : (strings.Split (strings.TrimSpace (exec (codeSearchArgs inp)).output) '\n').length
      ≤ 50) :
    (CodeSearch (.ok inp) exec).content = strings.TrimSpace (exec (codeSearchArgs inp)).output ∧
      (CodeSearch (.ok inp) exec).content =
        strings.Join (strings.Split (strings.TrimSpace (exec (codeSearchArgs inp)).output) '\n')
          "\n" ∧
      strings.Split (CodeSearch (.ok inp) exec).content '\n' =
        strings.Split (strings.TrimSpace (exec (codeSearchArgs inp)).output) '\n' ∧
      (CodeSearch (.ok inp) exec).err = none := by
  rw [CodeSearch_short_output inp exec hp he hn]
  exact ⟨rfl, (Join_Split _).symm, rfl, rfl⟩

theorem CodeSearch_not_truncated_witness :
    (CodeSearch (.ok { Pattern := "TODO" })
        (fun _ => ⟨"a.go:3:// TODO one\nb.go:7:// todo two\n", none⟩)).content
      = "a.go:3:// TODO one\nb.go:7:// todo two" :=
  ((CodeSearch_not_truncated { Pattern := "TODO" }
      (fun _ => ⟨"a.go:3:// TODO one\nb.go:7:// todo two\n", none⟩) (by decide) rfl
      (by decide)).1).trans (by decide)

/-- C10: for every decoding outcome and every behaviour of the process, the
content of `CodeSearch` splits on newline into at most 51 lines. On a
successful search whose trimmed output has N lines: if N is at most 50 the
content is the trimmed output; if N is greater than 50 (truncation) the content
has exactly 51 lines, its last line is "... (showing first 50 of N matches)"
with that same N, and its first 50 lines are the first 50 lines of the trimmed
output, a beginning of its list of lines. -/
theorem CodeSearch_line_bound (decoded : Except GoError CodeSearchInput)
    (exec : List String → CmdResult) :
    (strings.Split (CodeSearch decoded exec).content '\n').length ≤ 51 ∧
      ∀ inp : CodeSearchInput, decoded = .ok inp → inp.Pattern ≠ "" →
        (exec (codeSearchArgs inp)).err = none →
        ((strings.Split (strings.TrimSpace (exec (codeSearchArgs inp)).output) '\n').length ≤ 50 →
          (CodeSearch decoded exec).content
            = strings.TrimSpace (exec (codeSearchArgs inp)).output) ∧
        (50 < (strings.Split (strings.TrimSpace (exec (codeSearchArgs inp)).output) '\n').length →
          (strings.Split (CodeSearch decoded exec).content '\n').length = 51 ∧
          (strings.Split (CodeSearch decoded exec).content '\n').getLast? =
            some ("... (showing first 50 of " ++
              fmt.formatInt
                (strings.Split (strings.TrimSpace (exec (codeSearchArgs inp)).output)
                  '\n').length ++
              " matches)") ∧
          (strings.Split (CodeSearch decoded exec).content '\n').take 50 =
            (strings.Split (strings.TrimSpace (exec (codeSearchArgs inp)).output) '\n').take 50 ∧
          (strings.Split (CodeSearch decoded exec).content '\n').take 50 <+:
            strings.Split (strings.TrimSpace (exec (codeSearchArgs inp)).output) '\n') := by
  have hempty : (strings.Split "" '\n').length ≤ 51 := by decide
  have hnone : (strings.Split "No matches found" '\n').length ≤ 51 := by decide
  refine ⟨?_, ?_⟩
  · cases decoded with
    | error e => exact hempty
    | ok inp =>
      by_cases hp : inp.Pattern = ""
      · simpa [CodeSearch, hp] using hempty
      · rw [CodeSearch_ok_eq inp exec hp]
        cases he : (exec (codeSearchArgs inp)).err with
        | some err =>
          cases err with
          | exit code m =>
            by_cases hc : code = 1
            · simpa [hc] using hnone
            · simpa [hc] using hempty
          | unmarshal m => exact hempty
          | other m => exact hempty
          | errorf m => exact hempty
          | wrapf p i => exact hempty
        | none =>
          by_cases hn : 50 <
              (strings.Split (strings.TrimSpace (exec (codeSearchArgs inp)).output) '\n').length
          · simp only
            rw [if_pos hn, Split_truncated _ 50 _ (by decide)]
            simp
          · simp only
            rw [if_neg hn]
            omega
  · intro inp hd hp he
    subst hd
    refine ⟨fun hn => by rw [CodeSearch_short_output inp exec hp he hn], fun hn => ?_⟩
    rw [CodeSearch_long_output inp exec hp he hn]
    simp only
    rw [Split_truncated _ 50 _ (by decide)]
    have hlen : ((strings.Split (strings.TrimSpace (exec (codeSearchArgs inp)).output)
        '\n').take 50).length = 50 := by
      rw [List.length_take]; omega
    refine ⟨?_, ?_, ?_, ?_⟩
    · rw [List.length_append, hlen]; rfl
    · simp
    · rw [List.take_append_of_le_length (by omega), List.take_take]; simp
    · rw [List.take_append_of_le_length (by omega), List.take_take]
      exact List.take_prefix _ _

theorem CodeSearch_line_bound_witness :
    (strings.Split (CodeSearch (.ok { Pattern := "x" }) (fun _ => ⟨output51, none⟩)).content
        '\n').length = 51 ∧
      (strings.Split (CodeSearch (.ok { Pattern := "x" }) (fun _ => ⟨output51, none⟩)).content
        '\n').getLast? = some "... (showing first 50 of 51 matches)" :=
  have h := ((CodeSearch_line_bound (.ok { Pattern := "x" }) (fun _ => ⟨output51, none⟩)).2
    { Pattern := "x" } rfl (by decide) rfl).2 (by decide)
  ⟨h.1, h.2.1.trans (by decide)⟩

end tools

/-! ## The `bash` tool -/

namespace tools

theorem linesOfA_ne_nil (n : Nat) : linesOfA n ≠ [] := by
  cases n <;> simp [linesOfA]

theorem linesOfA_head (n : Nat) : ∃ t, linesOfA n = 'a' :: t := by
  cases n <;> simp [linesOfA]

theorem linesOfA_getLast (n : Nat) : (linesOfA n).getLast (linesOfA_ne_nil n) = 'a' := by
  induction n with
  | zero => rfl
  | succ k ih =>
    simp only [linesOfA]
    rw [List.getLast_cons (by simp), List.getLast_cons (linesOfA_ne_nil k)]
    exact ih

theorem linesOfA_count (n : Nat) : (linesOfA n).count '\n' = n := by
  induction n with
  | zero => decide
  | succ k ih =>
    simp only [linesOfA]
    rw [List.count_cons, List.count_cons, ih]
    simp

/-- Trimming leaves `linesOfA n` as it is: it starts and ends with `a`. -/
theorem TrimSpace_linesOfA (n : Nat) :
    strings.TrimSpace (String.mk (linesOfA n)) = String.mk (linesOfA n) := by
  have hhead : List.dropWhile unicode.IsSpace (linesOfA n) = linesOfA n := by
    obtain ⟨t, ht⟩ := linesOfA_head n
    rw [ht]
    exact List.dropWhile_cons_of_neg (by decide)
  show String.mk _ = String.mk _
  rw [hhead]
  congr 1
  rw [List.rdropWhile_eq_self_iff]
  intro hl
  rw [linesOfA_getLast n]
  decide

/-- C5: for a decoded bash input and a failing outcome of the spawned command
with failure message `e` and captured output `o`, `Bash` returns the content
"Command failed with error: " ++ e ++ "\nOutput: " ++ o and a nil error. -/
theorem Bash_command_failed (bashInput : BashInput) (exec : List String → CmdResult)
    (err : GoError) (he : (exec ["bash", "-c", bashInput.Command]).err = some err) :
    (Bash (.ok bashInput) exec).content =
        "Command failed with error: " ++ err.Error ++ "\nOutput: " ++
          (exec ["bash", "-c", bashInput.Command]).output ∧
      (Bash (.ok bashInput) exec).err = none := by
  simp [Bash, he]

theorem Bash_command_failed_witness :
    (Bash (.ok ⟨"ls /nonexistent"⟩)
        (fun _ => ⟨"ls: cannot access /nonexistent\n", some (.exit 2 "exit status 2")⟩)).content
      = "Command failed with error: exit status 2\nOutput: ls: cannot access /nonexistent\n" ∧
    (Bash (.ok ⟨"ls /nonexistent"⟩)
        (fun _ => ⟨"ls: cannot access /nonexistent\n", some (.exit 2 "exit status 2")⟩)).err
      = none :=
  have h := Bash_command_failed ⟨"ls /nonexistent"⟩
    (fun _ => ⟨"ls: cannot access /nonexistent\n", some (.exit 2 "exit status 2")⟩)
    (.exit 2 "exit status 2") rfl
  ⟨h.1.trans (by decide), h.2⟩

/-- C6: for a decoded bash input and a successful outcome of the spawned
command with combined output `o`, `Bash` returns `o` with its leading and
trailing white space removed and a nil error; the content neither starts nor
ends with a white-space character, and trimming it again changes nothing. -/
theorem Bash_success_trimmed (bashInput : BashInput) (exec : List String → CmdResult)
    (he : (exec ["bash", "-c", bashInput.Command]).err = none) :
    (Bash (.ok bashInput) exec).content =
        strings.TrimSpace (exec ["bash", "-c", bashInput.Command]).output ∧
      (Bash (.ok bashInput) exec).err = none ∧
      (∀ c, (Bash (.ok bashInput) exec).content.data.head? = some c →
        unicode.IsSpace c = false) ∧
      (∀ c, (Bash (.ok bashInput) exec).content.data.getLast? = some c →
        unicode.IsSpace c = false) ∧
      strings.TrimSpace (Bash (.ok bashInput) exec).content = (Bash (.ok bashInput) exec).content := by
  have hc : (Bash (.ok bashInput) exec).content =
      strings.TrimSpace (exec ["bash", "-c", bashInput.Command]).output := by
    simp [Bash, he]
  have hn : (Bash (.ok bashInput) exec).err = none := by
    simp [Bash, he]
  rw [hc]
  exact ⟨rfl, hn, TrimSpace_head_not_space _, TrimSpace_last_not_space _, TrimSpace_idempotent _⟩

theorem Bash_success_trimmed_witness :
    (Bash (.ok ⟨"echo hello"⟩) (fun _ => ⟨"hello\n", none⟩)).content = "hello" ∧
      (Bash (.ok ⟨"echo hello"⟩) (fun _ => ⟨"hello\n", none⟩)).err = none :=
  have h := Bash_success_trimmed ⟨"echo hello"⟩ (fun _ => ⟨"hello\n", none⟩) rfl
  ⟨h.1.trans (by decide), h.2.1⟩

/-- C9 (as stated, refuted): no cap bounds the number of lines of the content
`Bash` returns: whatever the cap, the successful output of `cap + 1` lines `a`
is returned whole. -/
theorem Bash_no_line_cap :
    ¬ ∃ cap : Nat, ∀ (bashInput : BashInput) (exec : List String → CmdResult),
      (strings.Split (Bash (.ok bashInput) exec).content '\n').length ≤ cap := by
  rintro ⟨cap, h⟩
  have h1 := h ⟨"yes a | head -n 100"⟩ (fun _ => ⟨String.mk (linesOfA cap), none⟩)
  have hc : (Bash (.ok ⟨"yes a | head -n 100"⟩)
      (fun _ => ⟨String.mk (linesOfA cap), none⟩)).content = String.mk (linesOfA cap) :=
    TrimSpace_linesOfA cap
  rw [hc, Split_length] at h1
  simp only [linesOfA_count] at h1
  omega

/-- C9 (amended): `Bash` returns the output of the command without any cap or
truncation marker: on success the content is the whole trimmed output, on
failure the failure message followed by the whole output; the lines of the
content on success are the lines of the trimmed output, and for every `n` the
successful output of `n + 1` lines `a` gives a content of `n + 1` lines. -/
theorem Bash_returns_whole_output (bashInput : BashInput) (exec : List String → CmdResult) :
    (Bash (.ok bashInput) exec).content =
        (match (exec ["bash", "-c", bashInput.Command]).err with
          | none => strings.TrimSpace (exec ["bash", "-c", bashInput.Command]).output
          | some err =>
            "Command failed with error: " ++ err.Error ++ "\nOutput: " ++
              (exec ["bash", "-c", bashInput.Command]).output) ∧
      ∀ n : Nat,
        (Bash (.ok bashInput) (fun _ => ⟨String.mk (linesOfA n), none⟩)).content
            = String.mk (linesOfA n) ∧
          (strings.Split
            (Bash (.ok bashInput) (fun _ => ⟨String.mk (linesOfA n), none⟩)).content
            '\n').length = n + 1 := by
  refine ⟨?_, fun n => ?_⟩
  · cases he : (exec ["bash", "-c", bashInput.Command]).err <;> simp [Bash, he]
  · have hc : (Bash (.ok bashInput) (fun _ => ⟨String.mk (linesOfA n), none⟩)).content
        = String.mk (linesOfA n) := TrimSpace_linesOfA n
    refine ⟨hc, ?_⟩
    rw [hc, Split_length]
    simp [linesOfA_count]

end tools
